import Mathlib

/-!
Verification of the zoom/pan transform and gesture engine of the jppype
viewer (TypeScript sources `zoom-pan-handler` and `point`).  Numbers are
modelled by the real numbers; the JavaScript float semantics (NaN,
rounding) is idealised, so equalities claimed by the spec only "up to
floating-point tolerance" are settled exactly over `ℝ`.
-/

namespace ZoomPan

open scoped Classical

noncomputable section

/-- The small constant `1e-8` that the source adds to derived scales. -/
def eps : ℝ := 1e-8

/-- A 2D point with real coordinates, mirroring the source class `Point`. -/
@[ext]
structure Point where
  x : ℝ
  y : ℝ

/-- The constant point `(0, 0)` (`Point.ORIGIN` in the source). -/
def ORIGIN : Point := ⟨0, 0⟩

namespace Point

/-- Componentwise addition (`Point.add`, point argument). -/
def add (p q : Point) : Point := ⟨p.x + q.x, p.y + q.y⟩

/-- Componentwise subtraction (`Point.subtract`, point argument). -/
def subtract (p q : Point) : Point := ⟨p.x - q.x, p.y - q.y⟩

/-- Componentwise multiplication (`Point.multiply`, point argument). -/
def multiply (p q : Point) : Point := ⟨p.x * q.x, p.y * q.y⟩

/-- Componentwise division (`Point.divide`, point argument). -/
def divide (p q : Point) : Point := ⟨p.x / q.x, p.y / q.y⟩

/-- Scalar multiplication (`Point.multiply`, number argument). -/
def multiplyN (p : Point) (k : ℝ) : Point := ⟨p.x * k, p.y * k⟩

/-- Scalar division (`Point.divide`, number argument). -/
def divideN (p : Point) (k : ℝ) : Point := ⟨p.x / k, p.y / k⟩

/-- Componentwise negation (`Point.neg`). -/
def neg (p : Point) : Point := ⟨-p.x, -p.y⟩

/-- Componentwise reciprocal (`Point.inv`). -/
def inv (p : Point) : Point := ⟨1 / p.x, 1 / p.y⟩

/-- Componentwise absolute value (`Point.abs`). -/
def abs (p : Point) : Point := ⟨|p.x|, |p.y|⟩

/-- Minimum of the two components (`Point.min`). -/
def min (p : Point) : ℝ := Min.min p.x p.y

/-- Maximum of the two components (`Point.max`). -/
def max (p : Point) : ℝ := Max.max p.x p.y

/-- Euclidean norm (`Point.norm`). -/
def norm (p : Point) : ℝ := Real.sqrt (p.x * p.x + p.y * p.y)

/-- Whether some component is zero (`Point.hasZero`). -/
def hasZero (p : Point) : Prop := p.x = 0 ∨ p.y = 0

/-- Componentwise equality test (`Point.equals`). -/
def equals (p q : Point) : Prop := p.x = q.x ∧ p.y = q.y

/-- Componentwise upper clipping (`Point.clip` with a `Point` argument):
`min(r, p)` in each component. -/
def clipPt (p r : Point) : Point := ⟨Min.min r.x p.x, Min.min r.y p.y⟩

/-- Clipping a norm (`Point.clip_norm`): scale the point down so that its
norm does not exceed `r`. -/
def clip_norm (p : Point) (r : ℝ) : Point :=
  let f := r / Max.max p.norm r
  if f < 1 then p.multiplyN f else p

end Point

/-- An axis-aligned rectangle given by two corners (source class `Rect`). -/
@[ext]
structure Rect where
  topLeft : Point
  bottomRight : Point

namespace Rect

/-- Left edge. -/
def left (r : Rect) : ℝ := r.topLeft.x

/-- Top edge. -/
def top (r : Rect) : ℝ := r.topLeft.y

/-- Right edge. -/
def right (r : Rect) : ℝ := r.bottomRight.x

/-- Bottom edge. -/
def bottom (r : Rect) : ℝ := r.bottomRight.y

/-- Width. -/
def width (r : Rect) : ℝ := r.bottomRight.x - r.topLeft.x

/-- Height. -/
def height (r : Rect) : ℝ := r.bottomRight.y - r.topLeft.y

/-- Size as a point (`Rect.size`). -/
def size (r : Rect) : Point := r.bottomRight.subtract r.topLeft

/-- Center point (`Rect.center`). -/
def center (r : Rect) : Point := (r.bottomRight.add r.topLeft).divideN 2

/-- Both dimensions nonnegative (`Rect.checkPositiveSize`). -/
def checkPositiveSize (r : Rect) : Prop := 0 ≤ r.width ∧ 0 ≤ r.height

/-- Empty when width or height is nonpositive (`Rect.isEmpty`). -/
def isEmpty (r : Rect) : Prop := r.width ≤ 0 ∨ r.height ≤ 0

/-- Translation by a point (`Rect.translate`). -/
def translate (r : Rect) (p : Point) : Rect :=
  ⟨r.topLeft.add p, r.bottomRight.add p⟩

/-- Componentwise scaling (`Rect.scale`, point argument). -/
def scale (r : Rect) (p : Point) : Rect :=
  ⟨r.topLeft.multiply p, r.bottomRight.multiply p⟩

/-- Rectangle from two x and two y coordinates in any order (`Rect.fromXY`). -/
def fromXY (x1 x2 y1 y2 : ℝ) : Rect :=
  ⟨⟨Min.min x1 x2, Min.min y1 y2⟩, ⟨Max.max x1 x2, Max.max y1 y2⟩⟩

/-- Rectangle from center and size (`Rect.fromCenter`). -/
def fromCenter (c s : Point) : Rect :=
  ⟨c.subtract (s.divideN 2).abs, c.add (s.divideN 2).abs⟩

/-- Union of two rectangles (`Rect.union`, rectangle argument). -/
def union (r q : Rect) : Rect :=
  fromXY (Min.min r.left q.left) (Max.max r.right q.right)
    (Min.min r.top q.top) (Max.max r.bottom q.bottom)

/-- Union with a point (`Rect.union`, point argument). -/
def unionPt (r : Rect) (p : Point) : Rect :=
  r.union (fromXY r.center.x p.x r.center.y p.y)

/-- Inward padding by a point (`Rect.pad` with a `Point` and `outward = false`);
degenerates to a zero-size rectangle at the center if the padding is too large. -/
def pad (r : Rect) (p : Point) : Rect :=
  let rr : Rect := ⟨r.topLeft.add p, r.bottomRight.subtract p⟩
  if rr.checkPositiveSize then rr else fromCenter rr.center ORIGIN

end Rect

/-- Clipping into a rectangle (`Point.clip` with a `Rect` argument). -/
def Point.clipRect (p : Point) (r : Rect) : Point :=
  ⟨Min.min r.bottomRight.x (Max.max r.topLeft.x p.x),
   Min.min r.bottomRight.y (Max.max r.topLeft.y p.y)⟩

/-- Coordinate-frame tags (`Coord = "view" | "scene" | "relative"`). -/
inductive Coord where
  | view
  | scene
  | relative
deriving DecidableEq

/-- A viewport transform (source interface `Transform`); `coord` is the
optional frame tag of `center` (absent means scene coordinates). -/
@[ext]
structure Transform where
  center : Point
  coord : Option Coord
  zoom : ℝ

/-- Equality test used by the reducer to decide whether to broadcast
(source `isSameTransform`): it compares center and zoom, not the tag. -/
def isSameTransform (t1 t2 : Transform) : Prop :=
  t1.center.equals t2.center ∧ t1.zoom = t2.zoom

/-- The geometry inputs of a zoom area (source class `ZoomAreaState`). -/
structure Geometry where
  viewSize : Point
  sceneRect : Rect
  maxScale : ℝ
  sceneDefaultRect : Option Rect

namespace Geometry

/-- Source getter `sceneMainDomain`: the default rectangle when present and
non-empty, otherwise the scene rectangle. -/
def sceneMainDomain (g : Geometry) : Rect :=
  match g.sceneDefaultRect with
  | some r => if ¬r.isEmpty then r else g.sceneRect
  | none => g.sceneRect

/-- Source getter `defaultScale`. -/
def defaultScale (g : Geometry) : ℝ :=
  if g.sceneMainDomain.isEmpty ∨ g.viewSize.hasZero then 1
  else (g.viewSize.divide g.sceneMainDomain.size).min + eps

/-- Source conversion `scale2zoom`. -/
def scale2zoom (g : Geometry) (s : ℝ) : ℝ :=
  Real.logb 2 (s / g.defaultScale)

/-- Source conversion `zoom2scale`; `2 ^ z` is the real power. -/
def zoom2scale (g : Geometry) (z : ℝ) : ℝ :=
  (2 : ℝ) ^ z * g.defaultScale

/-- Source getter `minScale`. -/
def minScale (g : Geometry) : ℝ :=
  if g.sceneRect.isEmpty then 1
  else Min.min ((g.viewSize.divide g.sceneRect.size).min + eps) g.maxScale

/-- Source getter `minZoom`. -/
def minZoom (g : Geometry) : ℝ :=
  if g.sceneRect.isEmpty then 0 else g.scale2zoom g.minScale

/-- Source getter `maxZoom`. -/
def maxZoom (g : Geometry) : ℝ := g.scale2zoom g.maxScale

/-- Source getter `relativeSceneBoundaries`: the scene rectangle expressed
relative to the main domain. -/
def relativeSceneBoundaries (g : Geometry) : Rect :=
  (g.sceneRect.translate g.sceneMainDomain.topLeft.neg).scale
    g.sceneMainDomain.size.inv

/-- Source conversion `scene2relative` on points. -/
def scene2relative (g : Geometry) (p : Point) : Point :=
  if g.sceneMainDomain.isEmpty then ⟨0.5, 0.5⟩
  else (p.subtract g.sceneMainDomain.topLeft).divide g.sceneMainDomain.size

/-- Source conversion `relative2scene` on points. -/
def relative2scene (g : Geometry) (p : Point) : Point :=
  (p.multiply g.sceneMainDomain.size).add g.sceneMainDomain.topLeft

/-- Source `centerInSceneCoord`. -/
def centerInSceneCoord (g : Geometry) (t : Transform) : Point :=
  if t.coord = some .relative then g.relative2scene t.center else t.center

/-- Source `centerInRelativeCoord`. -/
def centerInRelativeCoord (g : Geometry) (t : Transform) : Point :=
  if t.coord = some .relative then t.center else g.scene2relative t.center

/-- Source `relativeTransform`. -/
def relativeTransform (g : Geometry) (t : Transform) : Transform :=
  if t.coord = some .relative then t
  else ⟨g.scene2relative t.center, some .relative, t.zoom⟩

/-- Source `toRelativeCoord` on points. -/
def toRelativeCoord (g : Geometry) (p : Point) (t : Transform)
    (coord : Option Coord) : Point :=
  match coord with
  | some .view =>
      if g.sceneMainDomain.isEmpty then ⟨0.5, 0.5⟩
      else
        (((p.subtract (g.viewSize.divideN 2)).divideN
              (g.zoom2scale t.zoom)).divide
            g.sceneMainDomain.size).add (g.centerInRelativeCoord t)
  | some .relative => p
  | _ => g.scene2relative p

/-- Source `toSceneCoord` on points. -/
def toSceneCoord (g : Geometry) (p : Point) (t : Transform)
    (coord : Option Coord) : Point :=
  match coord with
  | some .view =>
      ((p.subtract (g.viewSize.divideN 2)).divideN
          (g.zoom2scale t.zoom)).add (g.centerInSceneCoord t)
  | some .relative => g.relative2scene p
  | _ => p

/-- Source `toViewCoord` on points. -/
def toViewCoord (g : Geometry) (p : Point) (t : Transform)
    (coord : Option Coord) : Point :=
  if coord = some .view then p
  else
    let p' := if coord = some .relative then g.relative2scene p else p
    ((p'.subtract (g.centerInSceneCoord t)).multiplyN
        (g.zoom2scale t.zoom)).add (g.viewSize.divideN 2)

/-- Source `visibleArea2Transform`. -/
def visibleArea2Transform (g : Geometry) (visibleArea : Rect)
    (coord : Option Coord) : Transform :=
  let c := visibleArea.center
  let visibleSize :=
    if coord = some .relative then
      visibleArea.size.multiply g.sceneMainDomain.size
    else visibleArea.size
  let c' := if coord = some .relative then c else g.scene2relative c
  ⟨c', some .relative, g.scale2zoom (g.viewSize.divide visibleSize).min⟩

/-- Source `constraintZoom`: clamp into `[minZoom, maxZoom]`. -/
def constraintZoom (g : Geometry) (zoom : ℝ) : ℝ :=
  Min.min (Max.max zoom g.minZoom) g.maxZoom

/-- Source `constraintCenter`.  The real-number model has no NaN, so the
source's NaN test on the center is identically false and is omitted. -/
def constraintCenter (g : Geometry) (t : Transform)
    (previousCenter : Option Point) : Transform :=
  if g.sceneRect.isEmpty then { t with center := ORIGIN }
  else
    let scale := g.zoom2scale t.zoom
    let pad := (g.viewSize.divideN (2 * scale)).clipPt (g.sceneRect.size.divideN 2)
    let b0 :=
      if t.coord = some .relative then
        g.relativeSceneBoundaries.pad (pad.divide g.sceneMainDomain.size)
      else g.sceneRect.pad pad
    let b := match previousCenter with
      | some pc => b0.unionPt pc
      | none => b0
    { t with center := t.center.clipRect b }

/-- Source `constraintTransform`. -/
def constraintTransform (g : Geometry) (t : Transform) : Transform :=
  g.constraintCenter { t with zoom := g.constraintZoom t.zoom } none

/-- Source `applyZoom`. -/
def applyZoom (g : Geometry) (t : Transform) (dZoom : ℝ)
    (zoomCenter : Option Point) (coord : Option Coord) : Transform :=
  let newZoom := g.constraintZoom (t.zoom + dZoom)
  let d := newZoom - t.zoom
  if d = 0 then t
  else
    match zoomCenter with
    | some zc =>
        let c := g.centerInSceneCoord t
        let dCenter :=
          if coord = some .view then
            (zc.subtract (g.viewSize.divideN 2)).multiplyN
              (1 / g.zoom2scale t.zoom - 1 / g.zoom2scale newZoom)
          else
            let zc' := if coord = some .relative then g.relative2scene zc else zc
            (zc'.subtract c).multiplyN (1 - (2 : ℝ) ^ (-d))
        ⟨c.add dCenter, none, newZoom⟩
    | none => g.constraintCenter { t with zoom := newZoom } none

end Geometry

/-- The non-animated reducer actions of `useZoomTransform` (source type
`ZoomAction` without the optional `animation` payload). -/
inductive ZAction where
  | setTransform (t : Transform)
  | setCenter (center : Point) (coord : Option Coord)
  | zoomBy (zoom : ℝ) (zoomCenter : Option Point) (zoomCenterCoord : Option Coord)
  | panBy (pan : Point) (coord : Option Coord)
  | ensureVisible (r : Rect)
  | setSceneRect (r : Rect)
  | setSceneDefaultRect (r : Option Rect)
  | setViewSize (s : Point)
  | animStep (t : Transform)
  | syncTransform (t : Transform)

/-- The reducer state: the mutable `ZoomAreaState` geometry together with the
stored transform of `useReducer`. -/
structure RState where
  geom : Geometry
  transform : Transform

/-- The translation applied by the `pan` branch of the reducer, depending on
the action's coordinate tag. -/
def panDelta (g : Geometry) (tr : Transform) (v : Point)
    (coord : Option Coord) : Point :=
  match coord with
  | some .relative => v.multiply g.sceneMainDomain.size
  | some .view => v.multiplyN (g.zoom2scale tr.zoom)
  | _ => v

/-- The tail of the reducer shared by all non-`syncTransform` branches:
store the new transform and broadcast it (in relative coordinates) when it
differs from the previous one. -/
def finishStep (g : Geometry) (prevTr newTr : Transform) :
    RState × Option Transform :=
  (⟨g, newTr⟩,
    if isSameTransform newTr prevTr then none
    else some (g.relativeTransform newTr))

/-- One step of the `useZoomTransform` reducer for non-animated actions.
The second component is the transform published to the sync bus, when any. -/
def stepCore (s : RState) (a : ZAction) : RState × Option Transform :=
  let g := s.geom
  let tr := s.transform
  match a with
  | .syncTransform t =>
      (⟨g, { t with zoom := g.constraintZoom t.zoom }⟩, none)
  | .animStep t => finishStep g tr t
  | .setTransform t => finishStep g tr (g.constraintTransform t)
  | .setCenter c coord =>
      finishStep g tr
        (g.constraintCenter
          { tr with center := g.toSceneCoord c tr coord, coord := some .scene }
          none)
  | .zoomBy z zc zcc => finishStep g tr (g.applyZoom tr z zc zcc)
  | .panBy v coord =>
      finishStep g tr
        (g.constraintCenter
          ⟨(g.centerInSceneCoord tr).add (panDelta g tr v coord), none, tr.zoom⟩
          (some (g.centerInSceneCoord tr)))
  | .ensureVisible r => finishStep g tr (g.visibleArea2Transform r none)
  | .setSceneRect r =>
      let g' := { g with sceneRect := r }
      finishStep g' tr (g'.constraintTransform tr)
  | .setSceneDefaultRect r =>
      let rt := g.relativeTransform tr
      let g' := { g with sceneDefaultRect := r }
      finishStep g' tr (g'.constraintTransform rt)
  | .setViewSize p =>
      let g' := { g with viewSize := p }
      finishStep g' tr (g'.constraintTransform tr)

/-- Iterated reducer steps. -/
def runActions (s : RState) (acts : List ZAction) : RState :=
  acts.foldl (fun s a => (stepCore s a).1) s

/-- The initial transform of `useZoomTransform`. -/
def iniTransform : Transform := ⟨⟨0.5, 0.5⟩, some .relative, 0⟩

/-- The action built by the default wheel handler of
`useSceneMouseEventListener` (`events.onWheel`), for a wheel event whose
normalized vertical delta is `deltaY` and whose view-space cursor is
`viewCursor`. -/
def defaultWheelAction (g : Geometry) (t : Transform) (viewCursor : Point)
    (deltaY : ℝ) : ZAction :=
  if t.zoom = g.minZoom ∧ 0 < deltaY then
    .panBy
      (((g.toRelativeCoord t.center t t.coord).subtract
          ⟨0.5, 0.5⟩).clip_norm (0.5 * deltaY)).neg
      (some .relative)
  else
    .zoomBy (-deltaY) (some viewCursor) (some .view)

/-- The per-button click/drag disambiguation state (source `ClickTimer`,
without the platform timeout handle). -/
structure ClickTimer where
  startPos : Point
  lastPos : Point

/-- Low-level pointer events consumed by `mouseEL`; `timeout` stands for the
750 ms hold timer of the current gesture firing. -/
inductive MIn where
  | down (pos : Point)
  | move (pos : Point) (movement : Point)
  | up (pos : Point)
  | timeout

/-- Semantic events emitted by `mouseEL` to the `events` listener. -/
inductive MOut where
  | click (pos : Point)
  | downEv (pos : Point)
  | moveEv (movement : Point)
  | upEv (pos : Point)

/-- Whether an output is a click. -/
def MOut.isClick : MOut → Bool
  | .click _ => true
  | _ => false

/-- Whether an output is a (possibly deferred) mouse-down. -/
def MOut.isDown : MOut → Bool
  | .downEv _ => true
  | _ => false

/-- Whether an output is a mouse-move. -/
def MOut.isMove : MOut → Bool
  | .moveEv _ => true
  | _ => false

/-- One step of the `mouseEL` handler for a single pointer button.  `scale`
is the current zoom scale used to convert view movement to scene movement;
the state is the pending click timer, when any. -/
def mstep (scale : ℝ) (st : Option ClickTimer) (e : MIn) :
    Option ClickTimer × List MOut :=
  match e with
  | .move pos movement =>
      match st with
      | some ct =>
          if (pos.subtract ct.startPos).norm < 5 then
            (some { ct with lastPos := pos }, [])
          else
            let delta := (ct.lastPos.subtract ct.startPos).divideN scale
            (none,
              [.downEv ct.startPos, .moveEv ((movement.divideN scale).add delta)])
      | none => (none, [.moveEv (movement.divideN scale)])
  | .down pos => (some ⟨pos, pos⟩, [])
  | .up pos =>
      match st with
      | some _ => (none, [.click pos])
      | none => (none, [.upEv pos])
  | .timeout =>
      match st with
      | some ct =>
          (none,
            [.downEv ct.startPos,
             .moveEv ((ct.lastPos.subtract ct.startPos).divideN scale)])
      | none => (none, [])

/-- Run `mstep` over a list of events, accumulating the emitted outputs. -/
def runMouse (scale : ℝ) (st : Option ClickTimer) :
    List MIn → Option ClickTimer × List MOut
  | [] => (st, [])
  | e :: es =>
      let r := mstep scale st e
      let rest := runMouse scale r.1 es
      (rest.1, r.2 ++ rest.2)

/-!
Concrete geometry of the spec's end-to-end scenario: view size 400×300,
scene rectangle `[0,0]–[1000,750]`, default domain equal to the scene
rectangle, maximum scale 50.
-/

/-- The end-to-end example geometry. -/
def g0 : Geometry :=
  ⟨⟨400, 300⟩, ⟨⟨0, 0⟩, ⟨1000, 750⟩⟩, 50, some ⟨⟨0, 0⟩, ⟨1000, 750⟩⟩⟩

/-- Actions whose reducer branch passes the stored zoom through
`constraintZoom` or leaves it unchanged.  `ensureVisible` and `animStep` are
the two branches that store an unclamped zoom. -/
def ZAction.zoomGuarded : ZAction → Prop
  | .ensureVisible _ => False
  | .animStep _ => False
  | _ => True

/-- The stored zoom lies within the current geometry's zoom bounds. -/
def zoomInRange (s : RState) : Prop :=
  s.geom.minZoom ≤ s.transform.zoom ∧ s.transform.zoom ≤ s.geom.maxZoom

/-- The current geometry's zoom bounds are ordered. -/
def zoomBoundsOk (s : RState) : Prop := s.geom.minZoom ≤ s.geom.maxZoom

/-- Example geometry for the pan witness: a 2×2 view over a 100×100 scene. -/
def g1 : Geometry :=
  ⟨⟨2, 2⟩, ⟨⟨0, 0⟩, ⟨100, 100⟩⟩, 50, some ⟨⟨0, 0⟩, ⟨100, 100⟩⟩⟩

/-- Example transform for the pan witness. -/
def t1 : Transform := ⟨⟨50, 50⟩, none, 0⟩

/-- Whether a reducer action is an externally synchronized transform. -/
def ZAction.isSync : ZAction → Prop
  | .syncTransform _ => True
  | _ => False

/-- The transform used in the C10 concrete instance. -/
def t10 : Transform := ⟨⟨500, 375⟩, none, 0⟩

/-- A full one-button gesture: a mouse-down at `p0`, a list of mouse-moves
(view position and raw movement pairs), and a mouse-up at `pUp`. -/
def gestureTrace (p0 : Point) (moves : List (Point × Point)) (pUp : Point) :
    List MIn :=
  MIn.down p0 :: (moves.map fun q => MIn.move q.1 q.2) ++ [MIn.up pUp]

lemma eps_val : eps = 1 / 100000000 := by norm_num [eps]

lemma g0_sceneMainDomain : g0.sceneMainDomain = ⟨⟨0, 0⟩, ⟨1000, 750⟩⟩ := by
  rw [show g0.sceneMainDomain =
      if ¬(⟨⟨0, 0⟩, ⟨1000, 750⟩⟩ : Rect).isEmpty then
        (⟨⟨0, 0⟩, ⟨1000, 750⟩⟩ : Rect) else g0.sceneRect from rfl]
  rw [if_pos]
  simp [Rect.isEmpty, Rect.width, Rect.height]

lemma g0_not_empty : ¬g0.sceneRect.isEmpty := by
  simp [g0, Rect.isEmpty, Rect.width, Rect.height]

lemma g0_defaultScale : g0.defaultScale = 2 / 5 + eps := by
  rw [Geometry.defaultScale, g0_sceneMainDomain, if_neg]
  · norm_num [g0, Point.divide, Point.min, Rect.size, Point.subtract]
  · rw [not_or]
    constructor
    · simp [Rect.isEmpty, Rect.width, Rect.height]
    · simp [g0, Point.hasZero]

lemma g0_defaultScale_pos : 0 < g0.defaultScale := by
  rw [g0_defaultScale, eps_val]; norm_num

lemma g0_minScale : g0.minScale = 2 / 5 + eps := by
  rw [Geometry.minScale, if_neg g0_not_empty, min_eq_left]
  · norm_num [g0, Point.divide, Point.min, Rect.size, Point.subtract]
  · norm_num [g0, Point.divide, Point.min, Rect.size, Point.subtract, eps_val]

lemma g0_minZoom : g0.minZoom = 0 := by
  rw [Geometry.minZoom, if_neg g0_not_empty, Geometry.scale2zoom, g0_minScale,
    ← g0_defaultScale, div_self (ne_of_gt g0_defaultScale_pos)]
  exact Real.logb_one

lemma g0_maxScale : g0.maxScale = 50 := rfl

lemma g0_one_lt_maxZoom : 1 < g0.maxZoom := by
  rw [Geometry.maxZoom, Geometry.scale2zoom, g0_maxScale]
  rw [Real.lt_logb_iff_rpow_lt one_lt_two]
  · rw [Real.rpow_one, g0_defaultScale, eps_val]
    rw [lt_div_iff₀ (by norm_num)]
    norm_num
  · rw [g0_defaultScale, eps_val]
    positivity

/-!
General helper lemmas about the geometry operations.
-/

lemma Geometry.constraintCenter_zoom (g : Geometry) (t : Transform)
    (pc : Option Point) : (g.constraintCenter t pc).zoom = t.zoom := by
  rw [Geometry.constraintCenter]
  split <;> rfl

lemma Geometry.constraintCenter_coord (g : Geometry) (t : Transform)
    (pc : Option Point) : (g.constraintCenter t pc).coord = t.coord := by
  rw [Geometry.constraintCenter]
  split <;> rfl

lemma Geometry.applyZoom_eq (g : Geometry) (t : Transform) (dZoom : ℝ)
    (zc : Option Point) (c : Option Coord) :
    g.applyZoom t dZoom zc c =
      if g.constraintZoom (t.zoom + dZoom) - t.zoom = 0 then t
      else
        match zc with
        | some z =>
            ⟨(g.centerInSceneCoord t).add
                (if c = some .view then
                  (z.subtract (g.viewSize.divideN 2)).multiplyN
                    (1 / g.zoom2scale t.zoom -
                      1 / g.zoom2scale (g.constraintZoom (t.zoom + dZoom)))
                else
                  ((if c = some .relative then g.relative2scene z
                      else z).subtract (g.centerInSceneCoord t)).multiplyN
                    (1 - (2 : ℝ) ^
                      (-(g.constraintZoom (t.zoom + dZoom) - t.zoom)))),
              none, g.constraintZoom (t.zoom + dZoom)⟩
        | none =>
            g.constraintCenter { t with zoom := g.constraintZoom (t.zoom + dZoom) }
              none := rfl

lemma Geometry.applyZoom_zoom (g : Geometry) (t : Transform) (dz : ℝ)
    (zc : Option Point) (c : Option Coord) :
    (g.applyZoom t dz zc c).zoom = g.constraintZoom (t.zoom + dz) := by
  rw [Geometry.applyZoom_eq]
  by_cases h : g.constraintZoom (t.zoom + dz) - t.zoom = 0
  · rw [if_pos h]
    have := sub_eq_zero.mp h
    exact this.symm
  · rw [if_neg h]
    cases zc with
    | some p => rfl
    | none => exact g.constraintCenter_zoom _ _

lemma Geometry.constraintZoom_le_max (g : Geometry) (z : ℝ) :
    g.constraintZoom z ≤ g.maxZoom := min_le_right _ _

lemma Geometry.min_le_constraintZoom (g : Geometry) (z : ℝ)
    (h : g.minZoom ≤ g.maxZoom) : g.minZoom ≤ g.constraintZoom z :=
  le_min (le_max_right _ _) h

/-- Claim C2: coordinate round-trip.  For every geometry and transform whose
scale `zoom2scale(t.zoom)` is nonzero (over the reals, "finite and nonzero"),
converting a view point to scene coordinates and back to view coordinates is
the identity, exactly. -/
theorem toView_toScene_round_trip (g : Geometry) (t : Transform) (p : Point)
    (h : g.zoom2scale t.zoom ≠ 0) :
    g.toViewCoord (g.toSceneCoord p t (some .view)) t (some .scene) = p := by
  have hv : (some Coord.scene : Option Coord) ≠ some Coord.view := by simp
  have hr : (some Coord.scene : Option Coord) ≠ some Coord.relative := by simp
  rw [Geometry.toViewCoord, if_neg hv, Geometry.toSceneCoord]
  simp only [if_neg hr]
  ext
  · simp only [Point.add, Point.subtract, Point.divideN, Point.multiplyN]
    field_simp
    ring
  · simp only [Point.add, Point.subtract, Point.divideN, Point.multiplyN]
    field_simp
    ring

/-- Witness for C2 at the example geometry with the initial transform and
the view point `(3, 4)`. -/
theorem toView_toScene_round_trip_witness :
    g0.zoom2scale iniTransform.zoom ≠ 0 ∧
      g0.toViewCoord (g0.toSceneCoord ⟨3, 4⟩ iniTransform (some .view))
        iniTransform (some .scene) = ⟨3, 4⟩ := by
  have h : g0.zoom2scale iniTransform.zoom ≠ 0 := by
    rw [Geometry.zoom2scale]
    have : iniTransform.zoom = 0 := rfl
    rw [this, Real.rpow_zero, one_mul]
    exact ne_of_gt g0_defaultScale_pos
  exact ⟨h, toView_toScene_round_trip g0 iniTransform ⟨3, 4⟩ h⟩

/-- Claim C1: zoom-at-pivot invariance.  For every transform, pivot given in
scene coordinates and zoom delta such that the target zoom stays strictly
within `[minZoom, maxZoom]`, applying `applyZoom` leaves the pivot's view
coordinate exactly unchanged. -/
theorem applyZoom_pivot_invariant (g : Geometry) (t : Transform) (p : Point)
    (d : ℝ) (h1 : g.minZoom < t.zoom + d) (h2 : t.zoom + d < g.maxZoom) :
    g.toViewCoord p (g.applyZoom t d (some p) (some .scene)) none =
      g.toViewCoord p t none := by
  have hclamp : g.constraintZoom (t.zoom + d) = t.zoom + d := by
    rw [Geometry.constraintZoom, max_eq_left h1.le, min_eq_left h2.le]
  have hd2 : t.zoom + d - t.zoom = d := by ring
  by_cases hd : d = 0
  · rw [Geometry.applyZoom_eq, if_pos (by rw [hclamp, hd2, hd])]
  · have hsr : ¬((some Coord.scene : Option Coord) = some Coord.view) := by simp
    have hsr2 : ¬((some Coord.scene : Option Coord) = some Coord.relative) := by
      simp
    have happ : g.applyZoom t d (some p) (some .scene) =
        ⟨(g.centerInSceneCoord t).add
            ((p.subtract (g.centerInSceneCoord t)).multiplyN
              (1 - (2 : ℝ) ^ (-d))), none, t.zoom + d⟩ := by
      rw [Geometry.applyZoom_eq]
      rw [if_neg (by rw [hclamp, hd2]; exact hd)]
      simp only [hclamp, hd2, if_neg hsr, if_neg hsr2]
    rw [happ]
    have hnv : ¬((none : Option Coord) = some Coord.view) := by simp
    have hnr : ¬((none : Option Coord) = some Coord.relative) := by simp
    rw [Geometry.toViewCoord, if_neg hnv, Geometry.toViewCoord, if_neg hnv]
    simp only [if_neg hnr]
    have hcen :
        g.centerInSceneCoord ⟨(g.centerInSceneCoord t).add
            ((p.subtract (g.centerInSceneCoord t)).multiplyN
              (1 - (2 : ℝ) ^ (-d))), none, t.zoom + d⟩ =
          (g.centerInSceneCoord t).add
            ((p.subtract (g.centerInSceneCoord t)).multiplyN
              (1 - (2 : ℝ) ^ (-d))) := by
      rw [Geometry.centerInSceneCoord, if_neg (by simp)]
    rw [hcen]
    have hab : (2 : ℝ) ^ (-d) * (2 : ℝ) ^ (t.zoom + d) = (2 : ℝ) ^ t.zoom := by
      rw [← Real.rpow_add two_pos]
      ring_nf
    ext
    · simp only [Point.add, Point.subtract, Point.multiplyN,
        Geometry.zoom2scale, Point.divideN]
      linear_combination (p.x - (g.centerInSceneCoord t).x) * g.defaultScale * hab
    · simp only [Point.add, Point.subtract, Point.multiplyN,
        Geometry.zoom2scale, Point.divideN]
      linear_combination (p.y - (g.centerInSceneCoord t).y) * g.defaultScale * hab

lemma eps_pos : 0 < eps := by norm_num [eps]

lemma Rect.not_isEmpty_iff (r : Rect) :
    ¬r.isEmpty ↔ 0 < r.width ∧ 0 < r.height := by
  simp [Rect.isEmpty, not_or, not_le]

lemma Rect.size_x (r : Rect) : r.size.x = r.width := rfl

lemma Rect.size_y (r : Rect) : r.size.y = r.height := rfl

lemma Geometry.sceneMainDomain_not_empty (g : Geometry)
    (h : ¬g.sceneRect.isEmpty) : ¬g.sceneMainDomain.isEmpty := by
  rw [Geometry.sceneMainDomain]
  cases g.sceneDefaultRect with
  | none => exact h
  | some r =>
      dsimp only
      split
      · assumption
      · exact h

lemma Geometry.defaultScale_pos (g : Geometry) (hx : 0 ≤ g.viewSize.x)
    (hy : 0 ≤ g.viewSize.y) : 0 < g.defaultScale := by
  rw [Geometry.defaultScale]
  split
  · exact one_pos
  · rename_i hcond
    rw [not_or] at hcond
    obtain ⟨h1, h2⟩ := hcond
    obtain ⟨hw, hh⟩ := (Rect.not_isEmpty_iff _).mp h1
    rw [Point.hasZero, not_or] at h2
    have hvx : 0 < g.viewSize.x := lt_of_le_of_ne hx (Ne.symm h2.1)
    have hvy : 0 < g.viewSize.y := lt_of_le_of_ne hy (Ne.symm h2.2)
    have hmin : 0 < (g.viewSize.divide g.sceneMainDomain.size).min := by
      rw [Point.min, Point.divide]
      apply lt_min
      · exact div_pos hvx (by rw [Rect.size_x]; exact hw)
      · exact div_pos hvy (by rw [Rect.size_y]; exact hh)
    linarith [eps_pos]

lemma Geometry.minScale_pos (g : Geometry) (hx : 0 ≤ g.viewSize.x)
    (hy : 0 ≤ g.viewSize.y) (hmax : 0 < g.maxScale) : 0 < g.minScale := by
  rw [Geometry.minScale]
  split
  · exact one_pos
  · rename_i hne
    obtain ⟨hw, hh⟩ := (Rect.not_isEmpty_iff _).mp hne
    have hmin : 0 ≤ (g.viewSize.divide g.sceneRect.size).min := by
      rw [Point.min, Point.divide]
      apply le_min
      · exact div_nonneg hx (by rw [Rect.size_x]; exact hw.le)
      · exact div_nonneg hy (by rw [Rect.size_y]; exact hh.le)
    apply lt_min
    · linarith [eps_pos]
    · exact hmax

lemma Geometry.minScale_le_maxScale (g : Geometry)
    (hne : ¬g.sceneRect.isEmpty) : g.minScale ≤ g.maxScale := by
  rw [Geometry.minScale, if_neg hne]
  exact min_le_right _ _

/-- With a non-empty scene rectangle, a nonnegative view size and a positive
maximum scale, the derived zoom bounds are in the right order. -/
lemma Geometry.minZoom_le_maxZoom (g : Geometry) (hne : ¬g.sceneRect.isEmpty)
    (hx : 0 ≤ g.viewSize.x) (hy : 0 ≤ g.viewSize.y) (hmax : 0 < g.maxScale) :
    g.minZoom ≤ g.maxZoom := by
  rw [Geometry.minZoom, if_neg hne, Geometry.maxZoom, Geometry.scale2zoom,
    Geometry.scale2zoom]
  have hD := g.defaultScale_pos hx hy
  have hms := g.minScale_pos hx hy hmax
  apply Real.logb_le_logb_of_le one_lt_two (div_pos hms hD)
  exact div_le_div_of_nonneg_right (g.minScale_le_maxScale hne) hD.le

/-- Witness for C1: the example geometry, the initial transform, pivot
`(100, 100)` and delta `1`. -/
theorem applyZoom_pivot_invariant_witness :
    g0.minZoom < iniTransform.zoom + 1 ∧ iniTransform.zoom + 1 < g0.maxZoom ∧
      g0.toViewCoord ⟨100, 100⟩
          (g0.applyZoom iniTransform 1 (some ⟨100, 100⟩) (some .scene)) none =
        g0.toViewCoord ⟨100, 100⟩ iniTransform none := by
  have hz : iniTransform.zoom = 0 := rfl
  have h1 : g0.minZoom < iniTransform.zoom + 1 := by
    rw [g0_minZoom, hz]; norm_num
  have h2 : iniTransform.zoom + 1 < g0.maxZoom := by
    rw [hz, zero_add]; exact g0_one_lt_maxZoom
  exact ⟨h1, h2, applyZoom_pivot_invariant g0 iniTransform ⟨100, 100⟩ 1 h1 h2⟩

lemma Geometry.constraintTransform_zoom (g : Geometry) (t : Transform) :
    (g.constraintTransform t).zoom = g.constraintZoom t.zoom :=
  g.constraintCenter_zoom _ _

lemma stepCore_zoomBy_transform (g : Geometry) (t : Transform) (d : ℝ)
    (zc : Option Point) (zcc : Option Coord) :
    (stepCore ⟨g, t⟩ (.zoomBy d zc zcc)).1.transform = g.applyZoom t d zc zcc :=
  rfl

/-- Claim C4: the result of a dispatched zoom action has its zoom clamped
into `[minZoom, maxZoom]` whenever those bounds are ordered, and the bounds
are ordered whenever the scene rectangle is non-empty (for a geometry with
nonnegative view size and positive maximum scale). -/
theorem zoom_action_bound (g : Geometry) (t : Transform) (d : ℝ)
    (zc : Option Point) (zcc : Option Coord) :
    (g.minZoom ≤ g.maxZoom →
      g.minZoom ≤ (stepCore ⟨g, t⟩ (.zoomBy d zc zcc)).1.transform.zoom ∧
        (stepCore ⟨g, t⟩ (.zoomBy d zc zcc)).1.transform.zoom ≤ g.maxZoom) ∧
    (¬g.sceneRect.isEmpty → 0 ≤ g.viewSize.x → 0 ≤ g.viewSize.y →
      0 < g.maxScale → g.minZoom ≤ g.maxZoom) := by
  constructor
  · intro hmm
    rw [stepCore_zoomBy_transform, Geometry.applyZoom_zoom]
    exact ⟨g.min_le_constraintZoom _ hmm, g.constraintZoom_le_max _⟩
  · exact g.minZoom_le_maxZoom

/-- Witness for C4 at the example geometry. -/
theorem zoom_action_bound_witness :
    (g0.minZoom ≤ g0.maxZoom ∧
      g0.minZoom ≤
          (stepCore ⟨g0, iniTransform⟩ (.zoomBy 1 none none)).1.transform.zoom ∧
        (stepCore ⟨g0, iniTransform⟩
            (.zoomBy 1 none none)).1.transform.zoom ≤ g0.maxZoom) ∧
    (¬g0.sceneRect.isEmpty ∧ g0.minZoom ≤ g0.maxZoom) := by
  have hmm : g0.minZoom ≤ g0.maxZoom := by
    rw [g0_minZoom]
    linarith [g0_one_lt_maxZoom]
  refine ⟨⟨hmm, (zoom_action_bound g0 iniTransform 1 none none).1 hmm⟩,
    g0_not_empty, (zoom_action_bound g0 iniTransform 1 none none).2 g0_not_empty
      (by norm_num [g0]) (by norm_num [g0]) (by norm_num [g0])⟩

/-!
The transform-zoom invariant (claim C3).
-/

lemma runActions_nil (s : RState) : runActions s [] = s := rfl

lemma runActions_cons (s : RState) (a : ZAction) (as : List ZAction) :
    runActions s (a :: as) = runActions (stepCore s a).1 as := rfl

lemma stepCore_zoom_inRange (s : RState) (a : ZAction) (ha : a.zoomGuarded)
    (hpost : zoomBoundsOk (stepCore s a).1) (hpre : zoomInRange s) :
    zoomInRange (stepCore s a).1 := by
  cases a with
  | setTransform t =>
      have hp : s.geom.minZoom ≤ s.geom.maxZoom := hpost
      refine ⟨?_, ?_⟩
      · show s.geom.minZoom ≤ (s.geom.constraintTransform t).zoom
        rw [Geometry.constraintTransform_zoom]
        exact s.geom.min_le_constraintZoom _ hp
      · show (s.geom.constraintTransform t).zoom ≤ s.geom.maxZoom
        rw [Geometry.constraintTransform_zoom]
        exact s.geom.constraintZoom_le_max _
  | setCenter c coord =>
      refine ⟨?_, ?_⟩
      · show s.geom.minZoom ≤
          (s.geom.constraintCenter
            { s.transform with
                center := s.geom.toSceneCoord c s.transform coord,
                coord := some Coord.scene } none).zoom
        rw [Geometry.constraintCenter_zoom]
        exact hpre.1
      · show (s.geom.constraintCenter
            { s.transform with
                center := s.geom.toSceneCoord c s.transform coord,
                coord := some Coord.scene } none).zoom ≤ s.geom.maxZoom
        rw [Geometry.constraintCenter_zoom]
        exact hpre.2
  | zoomBy d zc zcc =>
      have hp : s.geom.minZoom ≤ s.geom.maxZoom := hpost
      refine ⟨?_, ?_⟩
      · show s.geom.minZoom ≤ (s.geom.applyZoom s.transform d zc zcc).zoom
        rw [Geometry.applyZoom_zoom]
        exact s.geom.min_le_constraintZoom _ hp
      · show (s.geom.applyZoom s.transform d zc zcc).zoom ≤ s.geom.maxZoom
        rw [Geometry.applyZoom_zoom]
        exact s.geom.constraintZoom_le_max _
  | panBy v coord =>
      refine ⟨?_, ?_⟩
      · show s.geom.minZoom ≤
          (s.geom.constraintCenter
            ⟨(s.geom.centerInSceneCoord s.transform).add
                (panDelta s.geom s.transform v coord), none, s.transform.zoom⟩
            (some (s.geom.centerInSceneCoord s.transform))).zoom
        rw [Geometry.constraintCenter_zoom]
        exact hpre.1
      · show (s.geom.constraintCenter
            ⟨(s.geom.centerInSceneCoord s.transform).add
                (panDelta s.geom s.transform v coord), none, s.transform.zoom⟩
            (some (s.geom.centerInSceneCoord s.transform))).zoom ≤ s.geom.maxZoom
        rw [Geometry.constraintCenter_zoom]
        exact hpre.2
  | ensureVisible r => exact ha.elim
  | animStep t => exact ha.elim
  | setSceneRect r =>
      have hp : zoomBoundsOk (stepCore s (.setSceneRect r)).1 := hpost
      refine ⟨?_, ?_⟩
      · show ({ s.geom with sceneRect := r }).minZoom ≤
          (({ s.geom with sceneRect := r }).constraintTransform s.transform).zoom
        rw [Geometry.constraintTransform_zoom]
        exact Geometry.min_le_constraintZoom _ _ hp
      · show (({ s.geom with sceneRect := r }).constraintTransform
            s.transform).zoom ≤ ({ s.geom with sceneRect := r }).maxZoom
        rw [Geometry.constraintTransform_zoom]
        exact Geometry.constraintZoom_le_max _ _
  | setSceneDefaultRect r =>
      have hp : zoomBoundsOk (stepCore s (.setSceneDefaultRect r)).1 := hpost
      refine ⟨?_, ?_⟩
      · show ({ s.geom with sceneDefaultRect := r }).minZoom ≤
          (({ s.geom with sceneDefaultRect := r }).constraintTransform
            (s.geom.relativeTransform s.transform)).zoom
        rw [Geometry.constraintTransform_zoom]
        exact Geometry.min_le_constraintZoom _ _ hp
      · show (({ s.geom with sceneDefaultRect := r }).constraintTransform
            (s.geom.relativeTransform s.transform)).zoom ≤
          ({ s.geom with sceneDefaultRect := r }).maxZoom
        rw [Geometry.constraintTransform_zoom]
        exact Geometry.constraintZoom_le_max _ _
  | setViewSize p =>
      have hp : zoomBoundsOk (stepCore s (.setViewSize p)).1 := hpost
      refine ⟨?_, ?_⟩
      · show ({ s.geom with viewSize := p }).minZoom ≤
          (({ s.geom with viewSize := p }).constraintTransform s.transform).zoom
        rw [Geometry.constraintTransform_zoom]
        exact Geometry.min_le_constraintZoom _ _ hp
      · show (({ s.geom with viewSize := p }).constraintTransform
            s.transform).zoom ≤ ({ s.geom with viewSize := p }).maxZoom
        rw [Geometry.constraintTransform_zoom]
        exact Geometry.constraintZoom_le_max _ _
  | syncTransform t =>
      have hp : s.geom.minZoom ≤ s.geom.maxZoom := hpost
      exact ⟨s.geom.min_le_constraintZoom _ hp, s.geom.constraintZoom_le_max _⟩

lemma runActions_zoom_inRange (acts : List ZAction) :
    ∀ s : RState, (∀ a ∈ acts, a.zoomGuarded) →
      (∀ i, i ≤ acts.length → zoomBoundsOk (runActions s (acts.take i))) →
      zoomInRange s → zoomInRange (runActions s acts) := by
  induction acts with
  | nil => exact fun s _ _ h0 => h0
  | cons a as ih =>
      intro s hsafe hmm h0
      rw [runActions_cons]
      apply ih (stepCore s a).1
      · intro b hb
        exact hsafe b (List.mem_cons_of_mem a hb)
      · intro i hi
        have h := hmm (i + 1) (by simpa using Nat.succ_le_succ hi)
        rw [List.take_succ_cons, runActions_cons] at h
        exact h
      · apply stepCore_zoom_inRange s a (hsafe a (List.mem_cons_self a as)) ?_ h0
        have h := hmm 1 (by simp)
        rw [List.take_succ_cons, List.take_zero, runActions_cons,
          runActions_nil] at h
        exact h

/-- Counterexample to claim C3 as stated: from the initial state at the
example geometry, the single-action sequence `[ensureVisible [0,0]–[1,1]]`
leaves a stored zoom strictly above `maxZoom` of the (unchanged) geometry. -/
theorem transform_zoom_invariant_cex :
    ¬((runActions ⟨g0, iniTransform⟩
          [.ensureVisible ⟨⟨0, 0⟩, ⟨1, 1⟩⟩]).transform.zoom ≤ g0.maxZoom) := by
  have hz : (runActions ⟨g0, iniTransform⟩
        [.ensureVisible ⟨⟨0, 0⟩, ⟨1, 1⟩⟩]).transform.zoom =
      g0.scale2zoom ((g0.viewSize.divide (Rect.size ⟨⟨0, 0⟩, ⟨1, 1⟩⟩)).min) := rfl
  rw [hz, not_le]
  have hmin : (g0.viewSize.divide (Rect.size ⟨⟨0, 0⟩, ⟨1, 1⟩⟩)).min = 300 := by
    norm_num [g0, Point.divide, Point.min, Rect.size, Point.subtract]
  rw [hmin, Geometry.maxZoom, Geometry.scale2zoom, Geometry.scale2zoom,
    g0_maxScale]
  have hD := g0_defaultScale_pos
  apply Real.logb_lt_logb one_lt_two (div_pos (by norm_num) hD)
  rw [div_lt_div_iff_of_pos_right hD]
  norm_num

/-- Claim C3 (amended): starting from the initial transform, after any
sequence of reducer actions containing no `ensureVisible` and no `animStep`
action, the stored zoom lies in `[minZoom, maxZoom]` of the current geometry —
provided the initial zoom `0` lies within the initial bounds and the zoom
bounds are ordered for the geometry after every prefix of the sequence. -/
theorem transform_zoom_invariant (g : Geometry) (acts : List ZAction)
    (hsafe : ∀ a ∈ acts, a.zoomGuarded)
    (hmm : ∀ i, i ≤ acts.length →
      zoomBoundsOk (runActions ⟨g, iniTransform⟩ (acts.take i)))
    (h0 : g.minZoom ≤ 0 ∧ 0 ≤ g.maxZoom) :
    zoomInRange (runActions ⟨g, iniTransform⟩ acts) :=
  runActions_zoom_inRange acts ⟨g, iniTransform⟩ hsafe hmm h0

/-- Witness for the amended C3: a one-action zoom sequence at the example
geometry. -/
theorem transform_zoom_invariant_witness :
    (∀ a ∈ [ZAction.zoomBy 1 none none], a.zoomGuarded) ∧
      (∀ i, i ≤ [ZAction.zoomBy 1 none none].length →
        zoomBoundsOk (runActions ⟨g0, iniTransform⟩
          ([ZAction.zoomBy 1 none none].take i))) ∧
      (g0.minZoom ≤ 0 ∧ 0 ≤ g0.maxZoom) ∧
      zoomInRange (runActions ⟨g0, iniTransform⟩ [ZAction.zoomBy 1 none none]) := by
  have hmm0 : g0.minZoom ≤ g0.maxZoom := by
    rw [g0_minZoom]; linarith [g0_one_lt_maxZoom]
  have hsafe : ∀ a ∈ [ZAction.zoomBy 1 none none], a.zoomGuarded := by
    intro a ha
    rw [List.mem_singleton] at ha
    subst ha
    trivial
  have hpref : ∀ i, i ≤ [ZAction.zoomBy 1 none none].length →
      zoomBoundsOk (runActions ⟨g0, iniTransform⟩
        ([ZAction.zoomBy 1 none none].take i)) := by
    intro i hi
    have h01 : i = 0 ∨ i = 1 := by
      simp only [List.length_singleton] at hi
      omega
    rcases h01 with h | h <;> subst h
    · exact hmm0
    · exact hmm0
  have h0 : g0.minZoom ≤ 0 ∧ 0 ≤ g0.maxZoom := by
    rw [g0_minZoom]
    exact ⟨le_refl 0, by linarith [g0_one_lt_maxZoom]⟩
  exact ⟨hsafe, hpref, h0,
    transform_zoom_invariant g0 [ZAction.zoomBy 1 none none] hsafe hpref h0⟩

/-!
The end-to-end default-scale scenario (claim C9).
-/

/-- Counterexample to claim C9 as stated: `defaultScale` is not exactly
`0.4`; the source adds `1e-8` to the ratio. -/
theorem default_scale_cex : g0.defaultScale ≠ 2 / 5 := by
  rw [g0_defaultScale, eps_val]
  norm_num

/-- Claim C9 (amended): at the example geometry, `defaultScale` equals
`0.4 + 1e-8` (within `1e-8` of the spec's `0.4`), the scale at zoom `0`
equals `defaultScale`, and dispatching `zoom(+1)` yields a stored zoom of `1`
whose scale is `0.8 + 2e-8` (approximately `0.8`). -/
theorem default_scale_amended :
    g0.defaultScale = 2 / 5 + eps ∧
      g0.zoom2scale iniTransform.zoom = 2 / 5 + eps ∧
      (runActions ⟨g0, iniTransform⟩ [.zoomBy 1 none none]).transform.zoom = 1 ∧
      g0.zoom2scale
          ((runActions ⟨g0, iniTransform⟩ [.zoomBy 1 none none]).transform.zoom) =
        4 / 5 + 2 * eps := by
  have hz1 : (runActions ⟨g0, iniTransform⟩
      [.zoomBy 1 none none]).transform.zoom = 1 := by
    have h : (runActions ⟨g0, iniTransform⟩
        [.zoomBy 1 none none]).transform.zoom =
        g0.constraintZoom (iniTransform.zoom + 1) :=
      Geometry.applyZoom_zoom g0 iniTransform 1 none none
    rw [h]
    rw [show iniTransform.zoom = 0 from rfl, zero_add, Geometry.constraintZoom,
      g0_minZoom, max_eq_left zero_le_one,
      min_eq_left g0_one_lt_maxZoom.le]
  refine ⟨g0_defaultScale, ?_, hz1, ?_⟩
  · rw [show iniTransform.zoom = 0 from rfl, Geometry.zoom2scale,
      Real.rpow_zero, one_mul, g0_defaultScale]
  · rw [hz1, Geometry.zoom2scale, Real.rpow_one, g0_defaultScale]
    ring

/-!
Pan inversion and clipping idempotence (claim C5).
-/

lemma Geometry.constraintCenter_none_eq (g : Geometry) (t : Transform) :
    g.constraintCenter t none =
      if g.sceneRect.isEmpty then { t with center := ORIGIN }
      else
        { t with
            center := t.center.clipRect
              (if t.coord = some .relative then
                g.relativeSceneBoundaries.pad
                  (((g.viewSize.divideN (2 * g.zoom2scale t.zoom)).clipPt
                    (g.sceneRect.size.divideN 2)).divide g.sceneMainDomain.size)
              else
                g.sceneRect.pad
                  ((g.viewSize.divideN (2 * g.zoom2scale t.zoom)).clipPt
                    (g.sceneRect.size.divideN 2))) } := rfl

lemma Geometry.constraintCenter_some_eq (g : Geometry) (t : Transform)
    (pc : Point) :
    g.constraintCenter t (some pc) =
      if g.sceneRect.isEmpty then { t with center := ORIGIN }
      else
        { t with
            center := t.center.clipRect
              ((if t.coord = some .relative then
                g.relativeSceneBoundaries.pad
                  (((g.viewSize.divideN (2 * g.zoom2scale t.zoom)).clipPt
                    (g.sceneRect.size.divideN 2)).divide g.sceneMainDomain.size)
              else
                g.sceneRect.pad
                  ((g.viewSize.divideN (2 * g.zoom2scale t.zoom)).clipPt
                    (g.sceneRect.size.divideN 2))).unionPt pc) } := rfl

lemma Point.clipRect_idem (p : Point) (r : Rect) :
    (p.clipRect r).clipRect r = p.clipRect r := by
  have key : ∀ a b c : ℝ,
      Min.min a (Max.max b (Min.min a (Max.max b c))) = Min.min a (Max.max b c) := by
    intro a b c
    rcases le_total a (Max.max b c) with h | h
    · rw [min_eq_left h]
      rcases le_total b a with h2 | h2
      · rw [max_eq_right h2, min_self]
      · rw [max_eq_left h2, min_eq_left h2]
    · rw [min_eq_right h, max_eq_right (le_max_left b c), min_eq_right h]
  ext
  · exact key _ _ _
  · exact key _ _ _

lemma Geometry.constraintCenter_idem (g : Geometry) (t : Transform) :
    g.constraintCenter (g.constraintCenter t none) none =
      g.constraintCenter t none := by
  by_cases hemp : g.sceneRect.isEmpty
  · rw [Geometry.constraintCenter_none_eq g t, if_pos hemp,
      Geometry.constraintCenter_none_eq, if_pos hemp]
  · rw [Geometry.constraintCenter_none_eq g t, if_neg hemp,
      Geometry.constraintCenter_none_eq, if_neg hemp]
    dsimp only
    rw [Point.clipRect_idem]

lemma Geometry.centerInSceneCoord_of_none (g : Geometry) (t : Transform)
    (h : t.coord = none) : g.centerInSceneCoord t = t.center := by
  rw [Geometry.centerInSceneCoord, if_neg]
  rw [h]
  simp

lemma panDelta_neg (g : Geometry) (tr tr' : Transform) (hz : tr'.zoom = tr.zoom)
    (v : Point) (coord : Option Coord) :
    panDelta g tr' v.neg coord = (panDelta g tr v coord).neg := by
  rcases coord with _ | c
  · rfl
  · cases c with
    | view =>
        show (v.neg).multiplyN (g.zoom2scale tr'.zoom) =
          (v.multiplyN (g.zoom2scale tr.zoom)).neg
        rw [hz]
        ext <;> simp [Point.multiplyN, Point.neg]
    | scene => rfl
    | relative =>
        show (v.neg).multiply g.sceneMainDomain.size =
          (v.multiply g.sceneMainDomain.size).neg
        ext <;> simp [Point.multiply, Point.neg]

lemma stepCore_panBy_transform (g : Geometry) (t : Transform) (d : Point)
    (coord : Option Coord) :
    (stepCore ⟨g, t⟩ (.panBy d coord)).1.transform =
      g.constraintCenter
        ⟨(g.centerInSceneCoord t).add (panDelta g t d coord), none, t.zoom⟩
        (some (g.centerInSceneCoord t)) := rfl

/-- Claim C5: (i) a pan followed by the exact inverse pan (same coordinate
tag) restores the scene-space center, whenever neither pan's requested center
is clipped by the boundary rectangle (the hypotheses state that each pan's
stored center equals its unclipped candidate); (ii) `constraintCenter` is
idempotent. -/
theorem pan_inverse_and_clip_idem (g : Geometry) (t : Transform) (d : Point)
    (coord : Option Coord)
    (h1 : (stepCore ⟨g, t⟩ (.panBy d coord)).1.transform.center =
      (g.centerInSceneCoord t).add (panDelta g t d coord))
    (h2 : (stepCore (stepCore ⟨g, t⟩ (.panBy d coord)).1
          (.panBy d.neg coord)).1.transform.center =
      (g.centerInSceneCoord
          (stepCore ⟨g, t⟩ (.panBy d coord)).1.transform).add
        (panDelta g (stepCore ⟨g, t⟩ (.panBy d coord)).1.transform d.neg
          coord)) :
    (stepCore (stepCore ⟨g, t⟩ (.panBy d coord)).1
        (.panBy d.neg coord)).1.transform.center = g.centerInSceneCoord t ∧
      ∀ t' : Transform,
        g.constraintCenter (g.constraintCenter t' none) none =
          g.constraintCenter t' none := by
  have hc1 : (stepCore ⟨g, t⟩ (.panBy d coord)).1.transform.coord = none := by
    rw [stepCore_panBy_transform, Geometry.constraintCenter_coord]
  have hz1 : (stepCore ⟨g, t⟩ (.panBy d coord)).1.transform.zoom = t.zoom := by
    rw [stepCore_panBy_transform, Geometry.constraintCenter_zoom]
  constructor
  · rw [h2, Geometry.centerInSceneCoord_of_none _ _ hc1,
      panDelta_neg g t _ hz1 d coord, h1]
    ext <;> simp [Point.add, Point.neg]
  · intro t'
    exact g.constraintCenter_idem t'

lemma g1_not_empty : ¬g1.sceneRect.isEmpty := by
  simp [g1, Rect.isEmpty, Rect.width, Rect.height]

lemma g1_sceneMainDomain : g1.sceneMainDomain = ⟨⟨0, 0⟩, ⟨100, 100⟩⟩ := by
  rw [show g1.sceneMainDomain =
      if ¬(⟨⟨0, 0⟩, ⟨100, 100⟩⟩ : Rect).isEmpty then
        (⟨⟨0, 0⟩, ⟨100, 100⟩⟩ : Rect) else g1.sceneRect from rfl]
  rw [if_pos]
  simp [Rect.isEmpty, Rect.width, Rect.height]

lemma g1_defaultScale : g1.defaultScale = 1 / 50 + eps := by
  rw [Geometry.defaultScale, g1_sceneMainDomain, if_neg]
  · norm_num [g1, Point.divide, Point.min, Rect.size, Point.subtract]
  · rw [not_or]
    constructor
    · simp [Rect.isEmpty, Rect.width, Rect.height]
    · simp [g1, Point.hasZero]

lemma g1_scale0 : g1.zoom2scale 0 = 1 / 50 + eps := by
  rw [Geometry.zoom2scale, Real.rpow_zero, one_mul, g1_defaultScale]

/-- The boundary rectangle used by both pans in the C5 witness. -/
lemma g1_pan_boundary :
    g1.sceneRect.pad
        ((g1.viewSize.divideN (2 * g1.zoom2scale t1.zoom)).clipPt
          (g1.sceneRect.size.divideN 2)) =
      ⟨⟨100000000 / 2000001, 100000000 / 2000001⟩,
        ⟨100 - 100000000 / 2000001, 100 - 100000000 / 2000001⟩⟩ := by
  have hs : g1.zoom2scale t1.zoom = 1 / 50 + eps := g1_scale0
  have hq : (g1.viewSize.divideN (2 * g1.zoom2scale t1.zoom)).clipPt
      (g1.sceneRect.size.divideN 2) =
      ⟨(100000000 : ℝ) / 2000001, (100000000 : ℝ) / 2000001⟩ := by
    rw [hs]
    simp only [g1, Point.divideN, Point.clipPt, Rect.size, Point.subtract,
      eps_val]
    norm_num [min_eq_right, min_def]
  rw [hq, Rect.pad, if_pos]
  · simp only [g1, Point.add, Point.subtract]
    norm_num
  · constructor <;>
      simp only [g1, Rect.width, Rect.height, Point.add, Point.subtract] <;>
      norm_num [eps_val]

lemma panDelta_none (g : Geometry) (tr : Transform) (v : Point) :
    panDelta g tr v none = v := rfl

lemma stepCore_panBy_transform_state (s : RState) (d : Point)
    (coord : Option Coord) :
    (stepCore s (.panBy d coord)).1.transform =
      s.geom.constraintCenter
        ⟨(s.geom.centerInSceneCoord s.transform).add
            (panDelta s.geom s.transform d coord), none, s.transform.zoom⟩
        (some (s.geom.centerInSceneCoord s.transform)) := rfl

/-- Witness for C5: at `g1`, panning by `(1e-5, 0)` from the center
`(50, 50)` and back restores the center; both pans are unclipped. -/
theorem pan_inverse_and_clip_idem_witness :
    ((stepCore ⟨g1, t1⟩ (.panBy ⟨1 / 100000, 0⟩ none)).1.transform.center =
        (g1.centerInSceneCoord t1).add
          (panDelta g1 t1 ⟨1 / 100000, 0⟩ none)) ∧
      ((stepCore (stepCore ⟨g1, t1⟩ (.panBy ⟨1 / 100000, 0⟩ none)).1
            (.panBy (Point.neg ⟨1 / 100000, 0⟩) none)).1.transform.center =
        (g1.centerInSceneCoord
            (stepCore ⟨g1, t1⟩ (.panBy ⟨1 / 100000, 0⟩ none)).1.transform).add
          (panDelta g1
            (stepCore ⟨g1, t1⟩ (.panBy ⟨1 / 100000, 0⟩ none)).1.transform
            (Point.neg ⟨1 / 100000, 0⟩) none)) ∧
      ((stepCore (stepCore ⟨g1, t1⟩ (.panBy ⟨1 / 100000, 0⟩ none)).1
          (.panBy (Point.neg ⟨1 / 100000, 0⟩) none)).1.transform.center =
        g1.centerInSceneCoord t1) := by
  have hcis : g1.centerInSceneCoord t1 = ⟨50, 50⟩ :=
    Geometry.centerInSceneCoord_of_none g1 t1 rfl
  have hcand : (g1.centerInSceneCoord t1).add
      (panDelta g1 t1 ⟨1 / 100000, 0⟩ none) = ⟨5000001 / 100000, 50⟩ := by
    rw [hcis, panDelta_none]
    ext <;> simp [Point.add] <;> norm_num
  have hUnion1 :
      (⟨⟨100000000 / 2000001, 100000000 / 2000001⟩,
          ⟨100 - 100000000 / 2000001, 100 - 100000000 / 2000001⟩⟩ : Rect).unionPt
          ⟨50, 50⟩ =
        ⟨⟨100000000 / 2000001, 100000000 / 2000001⟩,
          ⟨100 - 100000000 / 2000001, 100 - 100000000 / 2000001⟩⟩ := by
    simp only [Rect.unionPt, Rect.union, Rect.fromXY, Rect.center, Rect.left,
      Rect.right, Rect.top, Rect.bottom, Point.add, Point.divideN]
    ext <;> norm_num [min_def, max_def]
  have hclip1 : (⟨5000001 / 100000, 50⟩ : Point).clipRect
      ⟨⟨100000000 / 2000001, 100000000 / 2000001⟩,
        ⟨100 - 100000000 / 2000001, 100 - 100000000 / 2000001⟩⟩ =
      ⟨5000001 / 100000, 50⟩ := by
    simp only [Point.clipRect]
    ext <;> norm_num [min_def, max_def]
  have h1 : (stepCore ⟨g1, t1⟩
      (.panBy ⟨1 / 100000, 0⟩ none)).1.transform.center =
      ⟨5000001 / 100000, 50⟩ := by
    rw [stepCore_panBy_transform, hcand, hcis,
      Geometry.constraintCenter_some_eq, if_neg g1_not_empty]
    dsimp only
    rw [if_neg (by simp : ¬((none : Option Coord) = some Coord.relative))]
    rw [g1_pan_boundary, hUnion1]
    exact hclip1
  have hc1 : (stepCore ⟨g1, t1⟩
      (.panBy ⟨1 / 100000, 0⟩ none)).1.transform.coord = none := by
    rw [stepCore_panBy_transform, Geometry.constraintCenter_coord]
  have hz1 : (stepCore ⟨g1, t1⟩
      (.panBy ⟨1 / 100000, 0⟩ none)).1.transform.zoom = t1.zoom := by
    rw [stepCore_panBy_transform, Geometry.constraintCenter_zoom]
  have h2cand : (g1.centerInSceneCoord
      (stepCore ⟨g1, t1⟩ (.panBy ⟨1 / 100000, 0⟩ none)).1.transform).add
      (panDelta g1
        (stepCore ⟨g1, t1⟩ (.panBy ⟨1 / 100000, 0⟩ none)).1.transform
        (Point.neg ⟨1 / 100000, 0⟩) none) = ⟨50, 50⟩ := by
    rw [Geometry.centerInSceneCoord_of_none _ _ hc1, panDelta_none, h1]
    ext <;> simp [Point.add, Point.neg] <;> norm_num
  have hUnion2 :
      (⟨⟨100000000 / 2000001, 100000000 / 2000001⟩,
          ⟨100 - 100000000 / 2000001, 100 - 100000000 / 2000001⟩⟩ : Rect).unionPt
          ⟨5000001 / 100000, 50⟩ =
        ⟨⟨100000000 / 2000001, 100000000 / 2000001⟩,
          ⟨100 - 100000000 / 2000001, 100 - 100000000 / 2000001⟩⟩ := by
    simp only [Rect.unionPt, Rect.union, Rect.fromXY, Rect.center, Rect.left,
      Rect.right, Rect.top, Rect.bottom, Point.add, Point.divideN]
    ext <;> norm_num [min_def, max_def]
  have hclip2 : (⟨50, 50⟩ : Point).clipRect
      ⟨⟨100000000 / 2000001, 100000000 / 2000001⟩,
        ⟨100 - 100000000 / 2000001, 100 - 100000000 / 2000001⟩⟩ =
      ⟨50, 50⟩ := by
    simp only [Point.clipRect]
    ext <;> norm_num [min_def, max_def]
  have h2 : (stepCore (stepCore ⟨g1, t1⟩ (.panBy ⟨1 / 100000, 0⟩ none)).1
      (.panBy (Point.neg ⟨1 / 100000, 0⟩) none)).1.transform.center =
      ⟨50, 50⟩ := by
    rw [stepCore_panBy_transform_state, show (stepCore ⟨g1, t1⟩
      (.panBy (⟨1 / 100000, 0⟩ : Point) none)).1.geom = g1 from rfl, h2cand,
      Geometry.centerInSceneCoord_of_none _ _ hc1, h1, hz1,
      Geometry.constraintCenter_some_eq, if_neg g1_not_empty]
    dsimp only
    rw [if_neg (by simp : ¬((none : Option Coord) = some Coord.relative))]
    rw [g1_pan_boundary, hUnion2]
    exact hclip2
  have hyp1 : (stepCore ⟨g1, t1⟩
      (.panBy ⟨1 / 100000, 0⟩ none)).1.transform.center =
      (g1.centerInSceneCoord t1).add (panDelta g1 t1 ⟨1 / 100000, 0⟩ none) :=
    h1.trans hcand.symm
  have hyp2 : (stepCore (stepCore ⟨g1, t1⟩ (.panBy ⟨1 / 100000, 0⟩ none)).1
      (.panBy (Point.neg ⟨1 / 100000, 0⟩) none)).1.transform.center =
      (g1.centerInSceneCoord
          (stepCore ⟨g1, t1⟩ (.panBy ⟨1 / 100000, 0⟩ none)).1.transform).add
        (panDelta g1
          (stepCore ⟨g1, t1⟩ (.panBy ⟨1 / 100000, 0⟩ none)).1.transform
          (Point.neg ⟨1 / 100000, 0⟩) none) :=
    h2.trans h2cand.symm
  exact ⟨hyp1, hyp2,
    (pan_inverse_and_clip_idem g1 t1 ⟨1 / 100000, 0⟩ none hyp1 hyp2).1⟩

/-!
Wheel handling at minimum zoom (claim C6).
-/

lemma Point.norm_neg (p : Point) : p.neg.norm = p.norm := by
  rw [Point.norm, Point.neg, Point.norm]
  norm_num

lemma Point.norm_multiplyN (p : Point) (k : ℝ) :
    (p.multiplyN k).norm = |k| * p.norm := by
  rw [Point.norm, Point.multiplyN, Point.norm]
  dsimp only
  rw [show p.x * k * (p.x * k) + p.y * k * (p.y * k) =
    k ^ 2 * (p.x * p.x + p.y * p.y) by ring]
  rw [Real.sqrt_mul (sq_nonneg k), Real.sqrt_sq_eq_abs]

/-- The norm of `clip_norm p r` never exceeds a positive cap `r`. -/
lemma Point.clip_norm_le (p : Point) (r : ℝ) (hr : 0 < r) :
    (p.clip_norm r).norm ≤ r := by
  simp only [Point.clip_norm]
  rcases le_or_lt p.norm r with h | h
  · rw [max_eq_right h, div_self hr.ne.symm, if_neg (lt_irrefl 1)]
    exact h
  · rw [max_eq_left h.le, if_pos (by rw [div_lt_one (hr.trans h)]; exact h)]
    rw [Point.norm_multiplyN,
      abs_of_nonneg (div_nonneg hr.le (hr.trans h).le),
      div_mul_cancel₀ _ (hr.trans h).ne.symm]

/-- Claim C6: when the current zoom equals `minZoom` and the wheel's
normalized `deltaY` is positive, the default wheel handler builds a pan
action in relative coordinates whose vector's norm is at most `0.5 * deltaY`,
and never a zoom action. -/
theorem wheel_at_min_zoom (g : Geometry) (t : Transform) (vc : Point)
    (dY : ℝ) (h1 : t.zoom = g.minZoom) (h2 : 0 < dY) :
    ∃ v : Point,
      defaultWheelAction g t vc dY = .panBy v (some .relative) ∧
        v.norm ≤ 0.5 * dY ∧
        ∀ z zc zcc, defaultWheelAction g t vc dY ≠ .zoomBy z zc zcc := by
  rw [defaultWheelAction, if_pos ⟨h1, h2⟩]
  refine ⟨_, rfl, ?_, ?_⟩
  · rw [Point.norm_neg]
    exact Point.clip_norm_le _ _ (by linarith)
  · intro z zc zcc hEq
    exact ZAction.noConfusion hEq

/-- Witness for C6 at the example geometry with a wheel delta of `2`. -/
theorem wheel_at_min_zoom_witness :
    iniTransform.zoom = g0.minZoom ∧ (0 : ℝ) < 2 ∧
      ∃ v : Point,
        defaultWheelAction g0 iniTransform ⟨7, 7⟩ 2 = .panBy v (some .relative) ∧
          v.norm ≤ 0.5 * 2 ∧
          ∀ z zc zcc,
            defaultWheelAction g0 iniTransform ⟨7, 7⟩ 2 ≠ .zoomBy z zc zcc := by
  have h1 : iniTransform.zoom = g0.minZoom := by
    rw [g0_minZoom]
    rfl
  exact ⟨h1, by norm_num,
    wheel_at_min_zoom g0 iniTransform ⟨7, 7⟩ 2 h1 (by norm_num)⟩

/-!
Broadcast on change (claim C8).
-/

lemma finishStep_broadcast (g : Geometry) (prevTr newTr : Transform)
    (h : ¬isSameTransform newTr prevTr) :
    (finishStep g prevTr newTr).2 = some (g.relativeTransform newTr) := by
  simp only [finishStep]
  rw [if_neg h]

/-- Counterexample to claim C8 as stated: a `syncTransform` action changes
the stored transform (center moves from `(0.5, 0.5)` to `(0.3, 0.3)`) yet
publishes nothing to the sync bus. -/
theorem broadcast_on_change_cex :
    ¬isSameTransform
        (stepCore ⟨g0, iniTransform⟩
          (.syncTransform ⟨⟨0.3, 0.3⟩, some .relative, 0⟩)).1.transform
        iniTransform ∧
      (stepCore ⟨g0, iniTransform⟩
          (.syncTransform ⟨⟨0.3, 0.3⟩, some .relative, 0⟩)).2 = none := by
  constructor
  · intro h
    exact absurd (show (0.3 : ℝ) = 0.5 from h.1.1) (by norm_num)
  · rfl

/-- Claim C8 (amended): for every action other than `syncTransform` (in the
non-animated reducer), if the stored transform after the action differs from
the one before (by center or zoom), the reducer publishes the new transform
in relative coordinates to the sync bus. -/
theorem broadcast_on_change (s : RState) (a : ZAction) (ha : ¬a.isSync)
    (hch : ¬isSameTransform (stepCore s a).1.transform s.transform) :
    (stepCore s a).2 =
      some ((stepCore s a).1.geom.relativeTransform
        (stepCore s a).1.transform) := by
  cases a with
  | setTransform t => exact finishStep_broadcast _ _ _ hch
  | setCenter c coord => exact finishStep_broadcast _ _ _ hch
  | zoomBy z zc zcc => exact finishStep_broadcast _ _ _ hch
  | panBy v coord => exact finishStep_broadcast _ _ _ hch
  | ensureVisible r => exact finishStep_broadcast _ _ _ hch
  | setSceneRect r => exact finishStep_broadcast _ _ _ hch
  | setSceneDefaultRect r => exact finishStep_broadcast _ _ _ hch
  | setViewSize p => exact finishStep_broadcast _ _ _ hch
  | animStep t => exact finishStep_broadcast _ _ _ hch
  | syncTransform t => exact absurd trivial ha

/-- Witness for the amended C8: an `animStep` to a different center is
broadcast. -/
theorem broadcast_on_change_witness :
    ¬(ZAction.animStep ⟨⟨0.25, 0.25⟩, some .relative, 0⟩).isSync ∧
      ¬isSameTransform
          (stepCore ⟨g0, iniTransform⟩
            (.animStep ⟨⟨0.25, 0.25⟩, some .relative, 0⟩)).1.transform
          iniTransform ∧
      (stepCore ⟨g0, iniTransform⟩
          (.animStep ⟨⟨0.25, 0.25⟩, some .relative, 0⟩)).2 =
        some ((stepCore ⟨g0, iniTransform⟩
            (.animStep ⟨⟨0.25, 0.25⟩, some .relative, 0⟩)).1.geom.relativeTransform
          (stepCore ⟨g0, iniTransform⟩
            (.animStep ⟨⟨0.25, 0.25⟩, some .relative, 0⟩)).1.transform) := by
  have ha : ¬(ZAction.animStep
      (⟨⟨0.25, 0.25⟩, some .relative, 0⟩ : Transform)).isSync := not_false
  have hch : ¬isSameTransform
      (stepCore ⟨g0, iniTransform⟩
        (.animStep ⟨⟨0.25, 0.25⟩, some .relative, 0⟩)).1.transform
      iniTransform := by
    intro h
    exact absurd (show (0.25 : ℝ) = 0.5 from h.1.1) (by norm_num)
  exact ⟨ha, hch, broadcast_on_change ⟨g0, iniTransform⟩
    (.animStep ⟨⟨0.25, 0.25⟩, some .relative, 0⟩) ha hch⟩

/-!
The pivot branch of `applyZoom` is never clipped and drops the coordinate
tag (claim C10).
-/

lemma g0_clamp_zero_add_one : g0.constraintZoom (t10.zoom + 1) = 1 := by
  rw [show t10.zoom = (0 : ℝ) from rfl, zero_add, Geometry.constraintZoom,
    g0_minZoom, max_eq_left zero_le_one, min_eq_left g0_one_lt_maxZoom.le]

lemma applyZoom_t10 :
    g0.applyZoom t10 1 (some ⟨1000000, 375⟩) none =
      ⟨⟨500250, 375⟩, none, 1⟩ := by
  rw [Geometry.applyZoom_eq, g0_clamp_zero_add_one]
  rw [if_neg (by rw [show t10.zoom = (0 : ℝ) from rfl]; norm_num)]
  dsimp only
  rw [if_neg (by simp : ¬((none : Option Coord) = some Coord.view)),
    if_neg (by simp : ¬((none : Option Coord) = some Coord.relative))]
  have hcen : g0.centerInSceneCoord t10 = ⟨500, 375⟩ :=
    Geometry.centerInSceneCoord_of_none g0 t10 rfl
  rw [hcen]
  have hpow : (2 : ℝ) ^ (-(1 - t10.zoom)) = 1 / 2 := by
    rw [show (-(1 - t10.zoom) : ℝ) = -1 by
      rw [show t10.zoom = (0 : ℝ) from rfl]; ring]
    rw [Real.rpow_neg_one]
    norm_num
  rw [hpow]
  have hc : (Point.mk 1000000 375).subtract ⟨500, 375⟩ = ⟨999500, 0⟩ := by
    ext <;> simp [Point.subtract] <;> norm_num
  rw [hc]
  have hm : (Point.mk 999500 0).multiplyN (1 - 1 / 2) = ⟨499750, 0⟩ := by
    ext <;> simp [Point.multiplyN] <;> norm_num
  rw [hm]
  have ha : (Point.mk 500 375).add ⟨499750, 0⟩ = ⟨500250, 375⟩ := by
    ext <;> simp [Point.add] <;> norm_num
  rw [ha]

lemma g0_scale_one : g0.zoom2scale 1 = 4 / 5 + 2 * eps := by
  rw [Geometry.zoom2scale, Real.rpow_one, g0_defaultScale]
  ring

lemma g0_pad_at_zoom_one :
    (g0.viewSize.divideN (2 * g0.zoom2scale 1)).clipPt
        (g0.sceneRect.size.divideN 2) =
      ⟨10000000000 / 40000001, 7500000000 / 40000001⟩ := by
  rw [g0_scale_one]
  simp only [g0, Point.divideN, Point.clipPt, Rect.size, Point.subtract,
    eps_val]
  ext <;> norm_num [min_def]

lemma g0_boundary_at_zoom_one :
    g0.sceneRect.pad ⟨10000000000 / 40000001, 7500000000 / 40000001⟩ =
      ⟨⟨10000000000 / 40000001, 7500000000 / 40000001⟩,
        ⟨1000 - 10000000000 / 40000001, 750 - 7500000000 / 40000001⟩⟩ := by
  rw [Rect.pad, if_pos]
  · simp only [g0, Point.add, Point.subtract]
    ext <;> norm_num
  · constructor <;>
      simp only [g0, Rect.width, Rect.height, Point.add, Point.subtract] <;>
      norm_num

/-- Claim C10: when `applyZoom` is given a pivot and the clamped delta is
nonzero, the result is exactly the zoom-at-point formula — its `coord` tag is
absent (hence interpreted as scene coordinates) and its center is not passed
through `constraintCenter`; at the concrete instance `g0`/`t10` with pivot
`(10⁶, 375)` the returned center lies outside the boundary that
`constraintCenter` would enforce. -/
theorem applyZoom_no_clip (g : Geometry) (t : Transform) (d : ℝ) (p : Point)
    (c : Option Coord) (h : g.constraintZoom (t.zoom + d) - t.zoom ≠ 0) :
    ((g.applyZoom t d (some p) c).coord = none ∧
      g.applyZoom t d (some p) c =
        ⟨(g.centerInSceneCoord t).add
            (if c = some .view then
              (p.subtract (g.viewSize.divideN 2)).multiplyN
                (1 / g.zoom2scale t.zoom -
                  1 / g.zoom2scale (g.constraintZoom (t.zoom + d)))
            else
              ((if c = some .relative then g.relative2scene p
                  else p).subtract (g.centerInSceneCoord t)).multiplyN
                (1 - (2 : ℝ) ^ (-(g.constraintZoom (t.zoom + d) - t.zoom)))),
          none, g.constraintZoom (t.zoom + d)⟩) ∧
      g0.constraintCenter (g0.applyZoom t10 1 (some ⟨1000000, 375⟩) none)
          none ≠
        g0.applyZoom t10 1 (some ⟨1000000, 375⟩) none := by
  constructor
  · rw [Geometry.applyZoom_eq, if_neg h]
    exact ⟨rfl, rfl⟩
  · rw [applyZoom_t10, Geometry.constraintCenter_none_eq,
      if_neg g0_not_empty]
    dsimp only
    rw [if_neg (by simp : ¬((none : Option Coord) = some Coord.relative))]
    rw [g0_pad_at_zoom_one, g0_boundary_at_zoom_one]
    intro hEq
    have hx := congrArg (fun tr : Transform => tr.center.x) hEq
    simp only [Point.clipRect] at hx
    norm_num [min_def, max_def] at hx

/-- Witness for C10 at the concrete instance: delta `1` from zoom `0` clamps
to `1`, which is nonzero. -/
theorem applyZoom_no_clip_witness :
    g0.constraintZoom (t10.zoom + 1) - t10.zoom ≠ 0 ∧
      (g0.applyZoom t10 1 (some ⟨1000000, 375⟩) none).coord = none := by
  have h : g0.constraintZoom (t10.zoom + 1) - t10.zoom ≠ 0 := by
    rw [g0_clamp_zero_add_one, show t10.zoom = (0 : ℝ) from rfl]
    norm_num
  exact ⟨h, ((applyZoom_no_clip g0 t10 1 ⟨1000000, 375⟩ none h).1).1⟩

/-!
Click versus drag disambiguation (claim C7).
-/

lemma runMouse_nil (s : ℝ) (st : Option ClickTimer) :
    runMouse s st [] = (st, []) := rfl

lemma runMouse_cons (s : ℝ) (st : Option ClickTimer) (e : MIn)
    (es : List MIn) :
    runMouse s st (e :: es) =
      ((runMouse s (mstep s st e).1 es).1,
        (mstep s st e).2 ++ (runMouse s (mstep s st e).1 es).2) := rfl

lemma runMouse_append (s : ℝ) (st : Option ClickTimer) (l1 l2 : List MIn) :
    runMouse s st (l1 ++ l2) =
      ((runMouse s (runMouse s st l1).1 l2).1,
        (runMouse s st l1).2 ++ (runMouse s (runMouse s st l1).1 l2).2) := by
  induction l1 generalizing st with
  | nil => simp [runMouse_nil]
  | cons e es ih =>
      rw [List.cons_append, runMouse_cons, ih, runMouse_cons]
      simp [List.append_assoc]

lemma runMouse_pending (s : ℝ) (p0 : Point) (moves : List (Point × Point)) :
    ∀ lp : Point, (∀ q ∈ moves, ((q.1).subtract p0).norm < 5) →
      runMouse s (some ⟨p0, lp⟩) (moves.map fun q => MIn.move q.1 q.2) =
        (some ⟨p0, List.foldl (fun _ q => q.1) lp moves⟩, []) := by
  induction moves with
  | nil => intro lp _; rfl
  | cons q qs ih =>
      intro lp h
      have hq := h q (List.mem_cons_self _ _)
      have hstep : mstep s (some ⟨p0, lp⟩) (MIn.move q.1 q.2) =
          (some ⟨p0, q.1⟩, []) := by
        simp only [mstep]
        rw [if_pos hq]
      rw [List.map_cons, runMouse_cons, hstep]
      rw [show ((some ⟨p0, q.1⟩, ([] : List MOut)).1 : Option ClickTimer) =
        some ⟨p0, q.1⟩ from rfl]
      rw [ih q.1 (fun r hr => h r (List.mem_cons_of_mem _ hr))]
      simp [List.foldl_cons]

lemma runMouse_idle_moves (s : ℝ) (post : List (Point × Point)) :
    runMouse s none (post.map fun q => MIn.move q.1 q.2) =
      (none, post.map fun q => MOut.moveEv (q.2.divideN s)) := by
  induction post with
  | nil => rfl
  | cons q qs ih =>
      rw [List.map_cons, runMouse_cons,
        show mstep s none (MIn.move q.1 q.2) =
          (none, [MOut.moveEv (q.2.divideN s)]) from rfl, ih]
      simp

lemma click_trace_outs (s : ℝ) (p0 pUp : Point)
    (moves : List (Point × Point))
    (h : ∀ q ∈ moves, ((q.1).subtract p0).norm < 5) :
    (runMouse s none (gestureTrace p0 moves pUp)).2 = [MOut.click pUp] := by
  rw [gestureTrace, List.cons_append, runMouse_cons,
    show mstep s none (MIn.down p0) = (some ⟨p0, p0⟩, []) from rfl]
  dsimp only
  rw [runMouse_append, runMouse_pending s p0 moves p0 h]
  dsimp only
  rw [show runMouse s
      (some ⟨p0, List.foldl (fun _ q => q.1) p0 moves⟩) [MIn.up pUp] =
      (none, [MOut.click pUp]) from rfl]
  simp

lemma drag_trace_outs (s : ℝ) (p0 pUp : Point)
    (pre post : List (Point × Point)) (q : Point × Point)
    (hpre : ∀ r ∈ pre, ((r.1).subtract p0).norm < 5)
    (hq : ¬(((q.1).subtract p0).norm < 5)) :
    (runMouse s none (gestureTrace p0 (pre ++ q :: post) pUp)).2 =
      MOut.downEv p0 ::
        MOut.moveEv ((q.2.divideN s).add
          (((List.foldl (fun _ r => r.1) p0 pre).subtract p0).divideN s)) ::
        ((post.map fun r => MOut.moveEv (r.2.divideN s)) ++ [MOut.upEv pUp]) := by
  rw [gestureTrace, List.map_append, List.map_cons]
  rw [List.cons_append, runMouse_cons,
    show mstep s none (MIn.down p0) = (some ⟨p0, p0⟩, []) from rfl]
  dsimp only
  rw [List.append_assoc, runMouse_append, runMouse_pending s p0 pre p0 hpre]
  dsimp only
  rw [List.cons_append, runMouse_cons]
  have hstep : mstep s (some ⟨p0, List.foldl (fun _ r => r.1) p0 pre⟩)
      (MIn.move q.1 q.2) =
      (none, [MOut.downEv p0,
        MOut.moveEv ((q.2.divideN s).add
          (((List.foldl (fun _ r => r.1) p0 pre).subtract p0).divideN s))]) := by
    simp only [mstep]
    rw [if_neg hq]
  rw [hstep]
  dsimp only
  rw [runMouse_append, runMouse_idle_moves]
  dsimp only
  rw [show runMouse s none [MIn.up pUp] = (none, [MOut.upEv pUp]) from rfl]
  simp

/-- Claim C7: (a) a mouse-down followed by moves all strictly within 5
view-space pixels of the down position and a mouse-up (with no intervening
hold timeout) emits exactly one click and no (deferred) mouse-down and no
mouse-move; (b) if some move reaches 5 px or more, no click is emitted, the
deferred mouse-down is emitted exactly once, and a move event carries the
raw movement plus the accumulated delta from the down position to the last
sub-threshold position, divided by the current scale. -/
theorem click_vs_drag (s : ℝ) :
    (∀ (p0 pUp : Point) (moves : List (Point × Point)),
      (∀ q ∈ moves, ((q.1).subtract p0).norm < 5) →
      (runMouse s none (gestureTrace p0 moves pUp)).2.countP MOut.isClick = 1 ∧
        (runMouse s none (gestureTrace p0 moves pUp)).2.countP MOut.isDown = 0 ∧
        (runMouse s none (gestureTrace p0 moves pUp)).2.countP MOut.isMove = 0) ∧
    (∀ (p0 pUp : Point) (pre post : List (Point × Point)) (q : Point × Point),
      (∀ r ∈ pre, ((r.1).subtract p0).norm < 5) →
      ¬(((q.1).subtract p0).norm < 5) →
      (runMouse s none (gestureTrace p0 (pre ++ q :: post) pUp)).2.countP
          MOut.isClick = 0 ∧
        (runMouse s none (gestureTrace p0 (pre ++ q :: post) pUp)).2.countP
          MOut.isDown = 1 ∧
        MOut.downEv p0 ∈
          (runMouse s none (gestureTrace p0 (pre ++ q :: post) pUp)).2 ∧
        MOut.moveEv ((q.2.divideN s).add
            (((List.foldl (fun _ r => r.1) p0 pre).subtract p0).divideN s)) ∈
          (runMouse s none (gestureTrace p0 (pre ++ q :: post) pUp)).2) := by
  constructor
  · intro p0 pUp moves h
    rw [click_trace_outs s p0 pUp moves h]
    refine ⟨?_, ?_, ?_⟩ <;> simp [List.countP_cons, MOut.isClick, MOut.isDown,
      MOut.isMove]
  · intro p0 pUp pre post q hpre hq
    rw [drag_trace_outs s p0 pUp pre post q hpre hq]
    refine ⟨?_, ?_, ?_, ?_⟩
    · simp [List.countP_cons, List.countP_append, List.countP_map,
        Function.comp, MOut.isClick]
    · simp [List.countP_cons, List.countP_append, List.countP_map,
        Function.comp, MOut.isDown]
    · simp
    · simp

/-- Witness for C7: scale `1`, down at the origin; part (a) with one
1-pixel move, part (b) with a single 5-pixel move. -/
theorem click_vs_drag_witness :
    ((∀ q ∈ [((⟨1, 0⟩ : Point), (⟨1, 0⟩ : Point))],
        ((q.1).subtract ⟨0, 0⟩).norm < 5) ∧
      (runMouse 1 none (gestureTrace ⟨0, 0⟩ [(⟨1, 0⟩, ⟨1, 0⟩)]
        ⟨1, 1⟩)).2.countP MOut.isClick = 1 ∧
      (runMouse 1 none (gestureTrace ⟨0, 0⟩ [(⟨1, 0⟩, ⟨1, 0⟩)]
        ⟨1, 1⟩)).2.countP MOut.isDown = 0 ∧
      (runMouse 1 none (gestureTrace ⟨0, 0⟩ [(⟨1, 0⟩, ⟨1, 0⟩)]
        ⟨1, 1⟩)).2.countP MOut.isMove = 0) ∧
    (¬((((⟨5, 0⟩ : Point), (⟨5, 0⟩ : Point)).1.subtract ⟨0, 0⟩).norm < 5) ∧
      (runMouse 1 none (gestureTrace ⟨0, 0⟩ ([] ++ (⟨5, 0⟩, ⟨5, 0⟩) :: [])
        ⟨1, 1⟩)).2.countP MOut.isClick = 0 ∧
      (runMouse 1 none (gestureTrace ⟨0, 0⟩ ([] ++ (⟨5, 0⟩, ⟨5, 0⟩) :: [])
        ⟨1, 1⟩)).2.countP MOut.isDown = 1) := by
  have hnorm1 : ((Point.mk 1 0).subtract ⟨0, 0⟩).norm < 5 := by
    rw [Point.subtract, Point.norm]
    norm_num [Real.sqrt_one]
  have hA : ∀ q ∈ [((⟨1, 0⟩ : Point), (⟨1, 0⟩ : Point))],
      ((q.1).subtract ⟨0, 0⟩).norm < 5 := by
    intro q hq
    rw [List.mem_singleton] at hq
    subst hq
    exact hnorm1
  have hnorm5 : ¬(((Point.mk 5 0).subtract ⟨0, 0⟩).norm < 5) := by
    have h5 : ((Point.mk 5 0).subtract ⟨0, 0⟩).norm = 5 := by
      rw [Point.subtract, Point.norm]
      norm_num
      rw [show (25 : ℝ) = 5 ^ 2 by norm_num]
      exact Real.sqrt_sq (by norm_num)
    rw [h5]
    exact lt_irrefl 5
  have hB := (click_vs_drag 1).2 ⟨0, 0⟩ ⟨1, 1⟩ [] []
    ((⟨5, 0⟩ : Point), (⟨5, 0⟩ : Point))
    (fun r hr => absurd hr (List.not_mem_nil r)) hnorm5
  exact ⟨⟨hA, (click_vs_drag 1).1 ⟨0, 0⟩ ⟨1, 1⟩ [(⟨1, 0⟩, ⟨1, 0⟩)] hA⟩,
    hnorm5, hB.1, hB.2.1⟩

end

end ZoomPan
